import Mathlib

/-!
Shallow embedding of the `go-like-ts` repository core
(`src/types/go-like.ts` and the `UserService` example built on it).

The TypeScript `IResult<T>` interface has an optional `data` field and an
optional `error` field; we model both as `Option`.  JavaScript's `||`
operator on strings treats the empty string as falsy, which matters for
`result.error || 'Unknown error'`-style defaulting; `jsOrStr` models it.
-/

/-- Embedding of the TypeScript interface
`IResult<T> { success: boolean; data?: T; error?: string }`.
Both optional fields are modelled as `Option`. -/
structure IResult (T : Type) where
  success : Bool
  data : Option T := none
  error : Option String := none
  deriving Repr, DecidableEq

/-- Embedding of `createSuccess = (data) => ({ success: true, data })`. -/
def createSuccess {T : Type} (data : T) : IResult T :=
  { success := true, data := some data }

/-- Embedding of `createError = (error) => ({ success: false, error })`. -/
def createError {T : Type} (error : String) : IResult T :=
  { success := false, error := some error }

/-- JavaScript `v || d` for an optional string `v`: `undefined` and the
empty string are falsy, any other string is returned as is. -/
def jsOrStr (v : Option String) (d : String) : String :=
  match v with
  | none => d
  | some s => if s = "" then d else s

namespace ResultUtils

/-- Embedding of `ResultUtils.map`: on a non-success result it rebuilds an
error from `result.error || 'Unknown error'`; on success it requires the
payload to be present (`isNotUndefined`) and wraps `mapper data`. -/
def map {TInput TOutput : Type} (result : IResult TInput)
    (mapper : TInput → TOutput) : IResult TOutput :=
  if !result.success then
    createError (jsOrStr result.error "Unknown error")
  else
    match result.data with
    | some d => createSuccess (mapper d)
    | none => createError "Data is undefined"

/-- Embedding of `ResultUtils.flatMap`: same error/absent-payload handling
as `map`, but the mapper's result is returned without re-wrapping. -/
def flatMap {TInput TOutput : Type} (result : IResult TInput)
    (mapper : TInput → IResult TOutput) : IResult TOutput :=
  if !result.success then
    createError (jsOrStr result.error "Unknown error")
  else
    match result.data with
    | some d => mapper d
    | none => createError "Data is undefined"

/-- Embedding of `ResultUtils.unwrapOr`. -/
def unwrapOr {T : Type} (result : IResult T) (defaultValue : T) : T :=
  match result.success, result.data with
  | true, some x => x
  | _, _ => defaultValue

/-- Embedding of `ResultUtils.isError`. -/
def isError {T : Type} (result : IResult T) : Bool :=
  !result.success

/-- Embedding of `ResultUtils.isSuccess` (requires a present payload). -/
def isSuccess {T : Type} (result : IResult T) : Bool :=
  result.success && result.data.isSome

end ResultUtils

/-! ## JavaScript values and `TypeConverter.toNumber` -/

/-- The fragment of JavaScript runtime values that `TypeConverter.toNumber`
can receive.  Numbers are modelled as `Int`: the only numbers the service
produces or consumes as ids are (small) integers. -/
inductive JsValue where
  | num (n : Int)
  | str (s : String)
  | boolean (b : Bool)
  | null
  | undef
  | object
  deriving Repr, DecidableEq

/-- JavaScript `typeof` for the modelled value fragment. -/
def typeofName : JsValue → String
  | .num _ => "number"
  | .str _ => "string"
  | .boolean _ => "boolean"
  | .null => "object"
  | .undef => "undefined"
  | .object => "object"

/-- Whitespace characters recognised by JavaScript string trimming (the
common ASCII fragment). -/
def isJsSpace (c : Char) : Bool :=
  c = ' ' || c = '\t' || c = '\n' || c = '\r' || c = '\x0b' || c = '\x0c'

/-- Value of a non-empty list of decimal digits, or `none` if the list is
empty or contains a non-digit. -/
def decDigits : List Char → Option Nat
  | [] => none
  | cs =>
    if cs.all (·.isDigit) then
      some (cs.foldl (fun acc c => acc * 10 + (c.toNat - '0'.toNat)) 0)
    else none

/-- Model of the ECMAScript `Number(string)` conversion, restricted to the
fragment exercised by this repository: surrounding whitespace is ignored,
the empty (or all-whitespace) string converts to `0`, and an optionally
signed decimal integer literal converts to its value.  Strings outside
this fragment (fractional, exponent, hex and other exotic literals) are
modelled as NaN (`none`). -/
def jsStringToNumber (s : String) : Option Int :=
  let cs := ((s.data.dropWhile isJsSpace).reverse.dropWhile isJsSpace).reverse
  match cs with
  | [] => some 0
  | '-' :: rest => (decDigits rest).map (fun n => -(n : Int))
  | '+' :: rest => (decDigits rest).map (fun n => (n : Int))
  | _ => (decDigits cs).map (fun n => (n : Int))

namespace TypeConverter

/-- Embedding of `TypeConverter.toNumber`: a number is returned as is; a
string is parsed with `Number(value)` and rejected when the parse is NaN;
any other value is rejected with a `typeof`-based message. -/
def toNumber (value : JsValue) : IResult Int :=
  match value with
  | .num n => createSuccess n
  | .str s =>
    match jsStringToNumber s with
    | some parsed => createSuccess parsed
    | none => createError ("Cannot convert \"" ++ s ++ "\" to number")
  | v => createError ("Cannot convert " ++ typeofName v ++ " to number")

end TypeConverter

/-! ## The user service -/

/-- Embedding of the TypeScript interface `IUser`. -/
structure IUser where
  id : Int
  name : String
  email : String
  deriving Repr, DecidableEq

/-- Embedding of the TypeScript interface `IUserCreateRequest`. -/
structure IUserCreateRequest where
  name : String
  email : String
  deriving Repr, DecidableEq

/-- Embedding of `Partial<IUserCreateRequest>`: each field either absent
(`none`, JavaScript `undefined`) or present. -/
structure UpdateRequest where
  name : Option String := none
  email : Option String := none
  deriving Repr, DecidableEq

/-- A JavaScript `Map<number, IUser>` modelled as an association list in
insertion order (JavaScript maps iterate in insertion order; `set` on an
existing key updates the entry in place). -/
abbrev UserMap := List (Int × IUser)

/-- `Map.get`: the value stored at key `k`, if any. -/
def mapGet (k : Int) : UserMap → Option IUser
  | [] => none
  | (k', v) :: rest => if k' = k then some v else mapGet k rest

/-- `Map.set`: replace the entry at key `k` in place, or append a new one. -/
def mapSet (k : Int) (v : IUser) : UserMap → UserMap
  | [] => [(k, v)]
  | (k', v') :: rest =>
    if k' = k then (k, v) :: rest else (k', v') :: mapSet k v rest

/-- `Map.delete`: remove the entry at key `k` (keys are unique in a
JavaScript map, so removing the first occurrence suffices). -/
def mapDelete (k : Int) : UserMap → UserMap
  | [] => []
  | (k', v) :: rest => if k' = k then rest else (k', v) :: mapDelete k rest

/-- `Map.has`. -/
def mapHas (k : Int) (m : UserMap) : Bool :=
  (mapGet k m).isSome

/-- `Array.from(map.values())`: the stored records in insertion order. -/
def mapValues (m : UserMap) : List IUser :=
  m.map Prod.snd

/-- The state of a `UserService` instance: the record map and the id
counter (`nextId` starts at 1). -/
structure UserService where
  users : UserMap
  nextId : Int
  deriving Repr, DecidableEq

/-- A freshly constructed `UserService` (`new UserService()`). -/
def freshStore : UserService :=
  { users := [], nextId := 1 }

namespace UserService

/-- Embedding of the private `validateName`: non-empty and at most 50
characters. -/
def validateName (name : String) : IResult Bool :=
  if ¬ (name.length > 0) then createError "Name cannot be empty"
  else if name.length > 50 then createError "Name cannot exceed 50 characters"
  else createSuccess true

/-- A character admitted by the `[^\s@]` atoms of the email regex: not
whitespace and not `@`. -/
def isEmailAtomChar (c : Char) : Bool :=
  !isJsSpace c && c != '@'

/-- Does the character list contain a `.` at a position with at least one
character before it and at least one after it?  (Used for the
`[^\s@]+\.[^\s@]+` tail of the email regex; `.` itself is a legal
`[^\s@]` character, so only such an interior dot is required.) -/
def hasInteriorDot : List Char → Bool
  | [] => false
  | _ :: rest => go rest
where
  /-- A dot at the current position with a non-empty suffix after it. -/
  go : List Char → Bool
    | '.' :: _ :: _ => true
    | _ :: rest => go rest
    | [] => false

/-- Split a character list at every `@`, like `string.split('@')`. -/
def splitAtSign : List Char → List (List Char)
  | [] => [[]]
  | c :: rest =>
    if c = '@' then [] :: splitAtSign rest
    else
      match splitAtSign rest with
      | [] => [[c]]
      | h :: t => (c :: h) :: t

/-- Embedding of `emailRegex.test` for `/^[^\s@]+@[^\s@]+\.[^\s@]+$/`:
the string splits at a unique `@` into a non-empty whitespace-free local
part and a whitespace-free domain part containing a dot with non-empty
material on both sides (`.` is itself a legal `[^\s@]` character, so the
two `+` atoms around the `\.` only force an interior dot). -/
def emailRegexTest (s : String) : Bool :=
  match splitAtSign s.data with
  | [localPart, domainPart] =>
    !localPart.isEmpty && localPart.all isEmailAtomChar &&
      domainPart.all isEmailAtomChar && hasInteriorDot domainPart
  | _ => false

/-- Embedding of the private `validateEmail`: non-empty and matching the
email regex. -/
def validateEmail (email : String) : IResult Bool :=
  if ¬ (email.length > 0) then createError "Email cannot be empty"
  else if ¬ emailRegexTest email then createError "Invalid email format"
  else createSuccess true

/-- Embedding of the private `findUserByEmail`: the first stored record
(in insertion order) whose email matches exactly. -/
def findUserByEmail (svc : UserService) (email : String) : IResult IUser :=
  match (mapValues svc.users).find? (fun u => u.email == email) with
  | none => createError "User not found"
  | some user => createSuccess user

/-- Embedding of `createUser`.  Mutating methods are modelled by returning
the result together with the updated service state. -/
def createUser (svc : UserService) (request : IUserCreateRequest) :
    IResult IUser × UserService :=
  let nameValidation := validateName request.name
  if ¬ nameValidation.success then
    (createError (jsOrStr nameValidation.error "Name validation failed"), svc)
  else
    let emailValidation := validateEmail request.email
    if ¬ emailValidation.success then
      (createError (jsOrStr emailValidation.error "Email validation failed"), svc)
    else
      let existingUserCheck := svc.findUserByEmail request.email
      if existingUserCheck.success then
        (createError "User with this email already exists", svc)
      else
        let user : IUser :=
          { id := svc.nextId, name := request.name, email := request.email }
        (createSuccess user,
         { users := mapSet user.id user svc.users, nextId := svc.nextId + 1 })

/-- Embedding of `getUserById` (read-only, so only the result is
returned). -/
def getUserById (svc : UserService) (id : String) : IResult IUser :=
  let idConversionResult := TypeConverter.toNumber (.str id)
  if ¬ idConversionResult.success then
    createError ("Invalid ID format: " ++ jsOrStr idConversionResult.error "unknown error")
  else
    match idConversionResult.data with
    | none => createError "ID conversion resulted in undefined"
    | some numericId =>
      match mapGet numericId svc.users with
      | none => createError ("User not found with ID: " ++ toString numericId)
      | some user => createSuccess user

/-- Embedding of `getAllUsers`. -/
def getAllUsers (svc : UserService) : IResult (List IUser) :=
  createSuccess (mapValues svc.users)

/-- The name-validation step of `updateUser`: when `updates.name` is
present (`isNotUndefined`) and fails `validateName`, the error message to
return. -/
def updateNameError (updates : UpdateRequest) : Option String :=
  match updates.name with
  | none => none
  | some nm =>
    let nameValidation := validateName nm
    if ¬ nameValidation.success then
      some (jsOrStr nameValidation.error "Name validation failed")
    else none

/-- The email-validation step of `updateUser`: when `updates.email` is
present, validate its shape, then fail when some record with a different
id (or a conflicting record with an absent payload, per the
`existingEmailCheck.data?.id !== existingUser.id` check) already holds
that email. -/
def updateEmailError (svc : UserService) (existingUser : IUser)
    (updates : UpdateRequest) : Option String :=
  match updates.email with
  | none => none
  | some em =>
    let emailValidation := validateEmail em
    if ¬ emailValidation.success then
      some (jsOrStr emailValidation.error "Email validation failed")
    else
      let existingEmailCheck := svc.findUserByEmail em
      if existingEmailCheck.success = true ∧
          existingEmailCheck.data.map IUser.id ≠ some existingUser.id then
        some "Email is already in use by another user"
      else none

/-- The `updatedUser` record built by `updateUser`: each field uses
JavaScript `||` (via `jsOrStr`), so a field that is absent — or present
but equal to the empty string — falls back to the existing value. -/
def updatedRecord (existingUser : IUser) (updates : UpdateRequest) : IUser :=
  { id := existingUser.id,
    name := jsOrStr updates.name existingUser.name,
    email := jsOrStr updates.email existingUser.email }

/-- Embedding of `updateUser`. -/
def updateUser (svc : UserService) (id : String) (updates : UpdateRequest) :
    IResult IUser × UserService :=
  let getUserResult := svc.getUserById id
  if ¬ getUserResult.success then
    (createError (jsOrStr getUserResult.error "User not found"), svc)
  else
    match getUserResult.data with
    | none => (createError "Retrieved user is undefined", svc)
    | some existingUser =>
      match updateNameError updates with
      | some e => (createError e, svc)
      | none =>
        match updateEmailError svc existingUser updates with
        | some e => (createError e, svc)
        | none =>
          let updatedUser : IUser := updatedRecord existingUser updates
          (createSuccess updatedUser,
           { svc with users := mapSet updatedUser.id updatedUser svc.users })

/-- Embedding of `deleteUser`. -/
def deleteUser (svc : UserService) (id : String) : IResult Bool × UserService :=
  let idConversionResult := TypeConverter.toNumber (.str id)
  if ¬ idConversionResult.success then
    (createError ("Invalid ID format: " ++ jsOrStr idConversionResult.error "unknown error"), svc)
  else
    match idConversionResult.data with
    | none => (createError "ID conversion resulted in undefined", svc)
    | some numericId =>
      if mapHas numericId svc.users then
        (createSuccess true, { svc with users := mapDelete numericId svc.users })
      else
        (createError ("User not found with ID: " ++ toString numericId), svc)

end UserService

/-! ## Basic lemmas about results and JavaScript string defaulting -/

theorem jsOrStr_none (d : String) : jsOrStr none d = d := rfl

theorem jsOrStr_some_of_ne {s : String} (h : s ≠ "") (d : String) :
    jsOrStr (some s) d = s := by
  simp [jsOrStr, h]

theorem createSuccess_success {T : Type} (x : T) :
    (createSuccess x).success = true := rfl

theorem createError_success {T : Type} (e : String) :
    (createError e : IResult T).success = false := rfl

theorem append_ne_empty_left {a b : String} (h : a ≠ "") : a ++ b ≠ "" := by
  intro hab
  apply h
  have hlen := congrArg String.length hab
  rw [String.length_append] at hlen
  have h0 : ("" : String).length = 0 := rfl
  have hz : a.length = 0 := by omega
  exact String.ext (List.length_eq_zero.mp hz)

/-! ## Lemmas about the validators -/

namespace UserService

theorem validateName_empty {name : String} (h : name.length = 0) :
    validateName name = createError "Name cannot be empty" := by
  simp [validateName, h]

theorem validateName_long {name : String} (h0 : 0 < name.length)
    (h : 50 < name.length) :
    validateName name = createError "Name cannot exceed 50 characters" := by
  unfold validateName
  rw [if_neg (by omega), if_pos h]

theorem validateName_ok {name : String} (h0 : 0 < name.length)
    (h : name.length ≤ 50) : validateName name = createSuccess true := by
  unfold validateName
  rw [if_neg (by omega), if_neg (by omega)]

theorem validateName_success_iff {name : String} :
    (validateName name).success = true ↔ 0 < name.length ∧ name.length ≤ 50 := by
  constructor
  · intro h
    by_cases h0 : 0 < name.length
    · by_cases h50 : name.length ≤ 50
      · exact ⟨h0, h50⟩
      · rw [validateName_long h0 (by omega)] at h
        simp [createError] at h
    · rw [validateName_empty (by omega)] at h
      simp [createError] at h
  · intro ⟨h0, h50⟩
    rw [validateName_ok h0 h50]
    rfl

theorem validateEmail_empty {email : String} (h : email.length = 0) :
    validateEmail email = createError "Email cannot be empty" := by
  simp [validateEmail, h]

theorem validateEmail_invalid {email : String} (_h0 : 0 < email.length)
    (h : emailRegexTest email = false) :
    validateEmail email = createError "Invalid email format" := by
  simp [validateEmail, h]
  omega

theorem validateEmail_ok {email : String} (h0 : 0 < email.length)
    (h : emailRegexTest email = true) : validateEmail email = createSuccess true := by
  simp [validateEmail, h]
  omega

theorem validateEmail_success_iff {email : String} :
    (validateEmail email).success = true ↔
      0 < email.length ∧ emailRegexTest email = true := by
  constructor
  · intro h
    by_cases h0 : 0 < email.length
    · by_cases hr : emailRegexTest email = true
      · exact ⟨h0, hr⟩
      · rw [validateEmail_invalid h0 (by simpa using hr)] at h
        simp [createError] at h
    · rw [validateEmail_empty (by omega)] at h
      simp [createError] at h
  · intro ⟨h0, hr⟩
    rw [validateEmail_ok h0 hr]
    rfl

/-! ## Lemmas about `findUserByEmail` -/

theorem findUserByEmail_success_iff {svc : UserService} {email : String} :
    (svc.findUserByEmail email).success = true ↔
      ∃ u ∈ mapValues svc.users, u.email = email := by
  unfold findUserByEmail
  cases hf : (mapValues svc.users).find? (fun u => u.email == email) with
  | none =>
    simp only [createError]
    constructor
    · intro h
      simp at h
    · rintro ⟨u, hu, he⟩
      have := List.find?_eq_none.mp hf u hu
      simp [he] at this
  | some u =>
    simp only [createSuccess]
    constructor
    · intro _
      exact ⟨u, List.mem_of_find?_eq_some hf, by simpa using List.find?_some hf⟩
    · intro _
      trivial

theorem findUserByEmail_fail_iff {svc : UserService} {email : String} :
    (svc.findUserByEmail email).success = false ↔
      ∀ u ∈ mapValues svc.users, u.email ≠ email := by
  rw [← Bool.not_eq_true, findUserByEmail_success_iff]
  simp

theorem findUserByEmail_eq_some {svc : UserService} {email : String} {u : IUser}
    (hd : (svc.findUserByEmail email).data = some u) :
    u ∈ mapValues svc.users ∧ u.email = email := by
  unfold findUserByEmail at hd
  cases hf : (mapValues svc.users).find? (fun w => w.email == email) with
  | none =>
    rw [hf] at hd
    simp [createError] at hd
  | some w =>
    rw [hf] at hd
    simp [createSuccess] at hd
    subst hd
    exact ⟨List.mem_of_find?_eq_some hf, by simpa using List.find?_some hf⟩

end UserService

/-! ## Lemmas about the association-list model of `Map<number, IUser>` -/

theorem mapGet_eq_some_mem {k : Int} {u : IUser} :
    ∀ {m : UserMap}, mapGet k m = some u → (k, u) ∈ m := by
  intro m
  induction m with
  | nil => intro h; simp [mapGet] at h
  | cons p rest ih =>
    intro h
    obtain ⟨k', v⟩ := p
    by_cases hk : k' = k
    · subst hk
      simp [mapGet] at h
      subst h
      exact List.mem_cons_self _ _
    · rw [mapGet, if_neg hk] at h
      exact List.mem_cons_of_mem _ (ih h)

theorem mapGet_eq_none_iff {k : Int} :
    ∀ {m : UserMap}, mapGet k m = none ↔ ∀ p ∈ m, p.1 ≠ k := by
  intro m
  induction m with
  | nil => simp [mapGet]
  | cons p rest ih =>
    obtain ⟨k', v⟩ := p
    by_cases hk : k' = k
    · subst hk
      simp [mapGet]
    · rw [mapGet, if_neg hk]
      rw [ih]
      constructor
      · intro h q hq
        rcases List.mem_cons.mp hq with h1 | h2
        · subst h1; exact hk
        · exact h q h2
      · intro h q hq
        exact h q (List.mem_cons_of_mem _ hq)

theorem mapSet_fresh {k : Int} {v : IUser} :
    ∀ {m : UserMap}, (∀ p ∈ m, p.1 ≠ k) → mapSet k v m = m ++ [(k, v)] := by
  intro m
  induction m with
  | nil => intro _; rfl
  | cons p rest ih =>
    intro h
    obtain ⟨k', v'⟩ := p
    have hk : k' ≠ k := h (k', v') (List.mem_cons_self _ _)
    rw [mapSet, if_neg hk, ih fun q hq => h q (List.mem_cons_of_mem _ hq)]
    rfl

theorem mapSet_present {k : Int} {u v : IUser} :
    ∀ {m : UserMap}, (m.map Prod.fst).Nodup → (k, u) ∈ m →
      ∃ l₁ l₂, m = l₁ ++ (k, u) :: l₂ ∧ mapSet k v m = l₁ ++ (k, v) :: l₂ := by
  intro m
  induction m with
  | nil => intro _ h; simp at h
  | cons p rest ih =>
    intro hnd hmem
    obtain ⟨k', v'⟩ := p
    rcases List.mem_cons.mp hmem with h1 | h2
    · obtain ⟨hk, hu⟩ := Prod.mk.injEq .. ▸ h1.symm
      subst hk
      subst hu
      refine ⟨[], rest, rfl, ?_⟩
      rw [mapSet, if_pos rfl]
      rfl
    · simp only [List.map_cons, List.nodup_cons] at hnd
      have hk : k' ≠ k := by
        intro hkk
        subst hkk
        exact hnd.1 (List.mem_map.mpr ⟨(k', u), h2, rfl⟩)
      obtain ⟨l₁, l₂, hm, hs⟩ := ih hnd.2 h2
      refine ⟨(k', v') :: l₁, l₂, by rw [hm]; rfl, ?_⟩
      rw [mapSet, if_neg hk, hs]
      rfl

theorem mapDelete_sublist (k : Int) :
    ∀ (m : UserMap), (mapDelete k m).Sublist m := by
  intro m
  induction m with
  | nil => exact List.Sublist.refl _
  | cons p rest ih =>
    obtain ⟨k', v⟩ := p
    by_cases hk : k' = k
    · rw [mapDelete, if_pos hk]
      exact List.sublist_cons_of_sublist _ (List.Sublist.refl _)
    · rw [mapDelete, if_neg hk]
      exact List.Sublist.cons₂ _ ih

theorem mem_keys_eq_entry {k : Int} {u w : IUser} :
    ∀ {m : UserMap}, (m.map Prod.fst).Nodup → (k, u) ∈ m → (k, w) ∈ m → u = w := by
  intro m
  induction m with
  | nil => intro _ h; simp at h
  | cons p rest ih =>
    intro hnd hu hw
    obtain ⟨k', v⟩ := p
    simp only [List.map_cons, List.nodup_cons] at hnd
    rcases List.mem_cons.mp hu with h1 | h1 <;> rcases List.mem_cons.mp hw with h2 | h2
    · rw [Prod.mk.injEq] at h1 h2
      rw [h1.2, h2.2]
    · exfalso
      rw [Prod.mk.injEq] at h1
      exact hnd.1 (h1.1 ▸ List.mem_map.mpr ⟨(k, w), h2, rfl⟩)
    · exfalso
      rw [Prod.mk.injEq] at h2
      exact hnd.1 (h2.1 ▸ List.mem_map.mpr ⟨(k, u), h1, rfl⟩)
    · exact ih hnd.2 h1 h2

theorem mem_values_exists_key {w : IUser} {m : UserMap} (h : w ∈ mapValues m) :
    ∃ k, (k, w) ∈ m := by
  obtain ⟨⟨k, v⟩, hp, hv⟩ := List.mem_map.mp h
  exact ⟨k, by rwa [show v = w from hv] at hp⟩

/-! ## Shape lemmas for results and `toNumber` -/

theorem createError_ne_createSuccess {T : Type} (e : String) (x : T) :
    (createError e : IResult T) ≠ createSuccess x := by
  intro h
  have := congrArg IResult.success h
  simp [createError, createSuccess] at this

theorem createSuccess_inj {T : Type} {a b : T}
    (h : createSuccess a = createSuccess b) : a = b := by
  have := congrArg IResult.data h
  simpa [createSuccess] using this

theorem toNumber_str_some {s : String} {n : Int} (h : jsStringToNumber s = some n) :
    TypeConverter.toNumber (.str s) = createSuccess n := by
  simp [TypeConverter.toNumber, h]

theorem toNumber_str_none {s : String} (h : jsStringToNumber s = none) :
    TypeConverter.toNumber (.str s) =
      createError ("Cannot convert \"" ++ s ++ "\" to number") := by
  simp [TypeConverter.toNumber, h]

theorem toNumber_error_ne_empty {v : JsValue} {m : String}
    (h : TypeConverter.toNumber v = createError m) : m ≠ "" := by
  cases v with
  | num n =>
    exact absurd h.symm (createError_ne_createSuccess m n)
  | str s =>
    cases hp : jsStringToNumber s with
    | some n =>
      rw [toNumber_str_some hp] at h
      exact absurd h.symm (createError_ne_createSuccess m n)
    | none =>
      rw [toNumber_str_none hp] at h
      have hm := congrArg IResult.error h
      simp only [createError, Option.some.injEq] at hm
      rw [← hm]
      exact append_ne_empty_left (append_ne_empty_left (by decide))
  | boolean b =>
    have hm := congrArg IResult.error h
    simp only [TypeConverter.toNumber, typeofName, createError, Option.some.injEq] at hm
    rw [← hm]
    decide
  | null =>
    have hm := congrArg IResult.error h
    simp only [TypeConverter.toNumber, typeofName, createError, Option.some.injEq] at hm
    rw [← hm]
    decide
  | undef =>
    have hm := congrArg IResult.error h
    simp only [TypeConverter.toNumber, typeofName, createError, Option.some.injEq] at hm
    rw [← hm]
    decide
  | object =>
    have hm := congrArg IResult.error h
    simp only [TypeConverter.toNumber, typeofName, createError, Option.some.injEq] at hm
    rw [← hm]
    decide

/-! ## Characterization of `getUserById` -/

namespace UserService

theorem getUserById_conv_fail {svc : UserService} {id : String} {m : String}
    (h : TypeConverter.toNumber (.str id) = createError m) :
    svc.getUserById id = createError ("Invalid ID format: " ++ m) := by
  have hm : m ≠ "" := toNumber_error_ne_empty h
  simp only [getUserById]
  rw [h]
  simp [createError, jsOrStr_some_of_ne hm]

theorem getUserById_not_found {svc : UserService} {id : String} {n : Int}
    (h : TypeConverter.toNumber (.str id) = createSuccess n)
    (hg : mapGet n svc.users = none) :
    svc.getUserById id = createError ("User not found with ID: " ++ toString n) := by
  simp only [getUserById]
  rw [h]
  simp [createSuccess, hg]

theorem getUserById_found {svc : UserService} {id : String} {n : Int} {u : IUser}
    (h : TypeConverter.toNumber (.str id) = createSuccess n)
    (hg : mapGet n svc.users = some u) :
    svc.getUserById id = createSuccess u := by
  simp only [getUserById]
  rw [h]
  simp [createSuccess, hg]

theorem getUserById_fail_shape {svc : UserService} {id : String}
    (h : (svc.getUserById id).success = false) :
    ∃ e, svc.getUserById id = createError e ∧ e ≠ "" := by
  cases hp : jsStringToNumber id with
  | none =>
    have hc := toNumber_str_none hp
    refine ⟨_, getUserById_conv_fail hc, ?_⟩
    exact append_ne_empty_left (by decide)
  | some n =>
    have hc := toNumber_str_some hp
    cases hg : mapGet n svc.users with
    | none =>
      refine ⟨_, getUserById_not_found hc hg, ?_⟩
      exact append_ne_empty_left (by decide)
    | some u =>
      rw [getUserById_found hc hg] at h
      simp [createSuccess] at h

theorem getUserById_success_inv {svc : UserService} {id : String} {u : IUser}
    (h : svc.getUserById id = createSuccess u) :
    ∃ n, TypeConverter.toNumber (.str id) = createSuccess n ∧
      mapGet n svc.users = some u := by
  cases hp : jsStringToNumber id with
  | none =>
    rw [getUserById_conv_fail (toNumber_str_none hp)] at h
    exact absurd h (createError_ne_createSuccess _ _)
  | some n =>
    have hc := toNumber_str_some hp
    cases hg : mapGet n svc.users with
    | none =>
      rw [getUserById_not_found hc hg] at h
      exact absurd h (createError_ne_createSuccess _ _)
    | some w =>
      rw [getUserById_found hc hg] at h
      exact ⟨n, hc, by rw [hg, createSuccess_inj h]⟩

theorem getUserById_success_shape {svc : UserService} {id : String}
    (h : (svc.getUserById id).success = true) :
    ∃ u, svc.getUserById id = createSuccess u := by
  cases hp : jsStringToNumber id with
  | none =>
    rw [getUserById_conv_fail (toNumber_str_none hp)] at h
    simp [createError] at h
  | some n =>
    have hc := toNumber_str_some hp
    cases hg : mapGet n svc.users with
    | none =>
      rw [getUserById_not_found hc hg] at h
      simp [createError] at h
    | some u =>
      exact ⟨u, getUserById_found hc hg⟩

end UserService

/-! ## Characterization of the mutating operations -/

namespace UserService

theorem updateNameError_none_iff {updates : UpdateRequest} :
    updateNameError updates = none ↔
      updates.name = none ∨
        ∃ nm, updates.name = some nm ∧ 0 < nm.length ∧ nm.length ≤ 50 := by
  cases hn : updates.name with
  | none => simp [updateNameError, hn]
  | some nm =>
    simp only [updateNameError, hn]
    by_cases hv : (validateName nm).success = true
    · rw [if_neg (not_not_intro hv)]
      simp [validateName_success_iff.mp hv]
    · rw [if_pos hv]
      simp only [reduceCtorEq, false_iff, not_or]
      refine ⟨by simp, ?_⟩
      rintro ⟨nm', hnm', hlen⟩
      rw [Option.some.injEq] at hnm'
      subst hnm'
      exact hv (validateName_success_iff.mpr hlen)

theorem updateEmailError_none_iff {svc : UserService} {u : IUser}
    {updates : UpdateRequest} :
    updateEmailError svc u updates = none ↔
      updates.email = none ∨
        ∃ em, updates.email = some em ∧ 0 < em.length ∧ emailRegexTest em = true ∧
          ((svc.findUserByEmail em).success = false ∨
            (svc.findUserByEmail em).data.map IUser.id = some u.id) := by
  cases he : updates.email with
  | none => simp [updateEmailError, he]
  | some em =>
    simp only [updateEmailError, he]
    by_cases hv : (validateEmail em).success = true
    · rw [if_neg (not_not_intro hv)]
      obtain ⟨hlen, hre⟩ := validateEmail_success_iff.mp hv
      by_cases hc : (svc.findUserByEmail em).success = true ∧
          (svc.findUserByEmail em).data.map IUser.id ≠ some u.id
      · rw [if_pos hc]
        simp only [reduceCtorEq, false_iff, not_or]
        refine ⟨by simp, ?_⟩
        rintro ⟨em', hem', _, _, hdisj⟩
        rw [Option.some.injEq] at hem'
        subst hem'
        rcases hdisj with hf | hid
        · rw [hc.1] at hf
          exact Bool.true_eq_false.mp hf
        · exact hc.2 hid
      · rw [if_neg hc]
        simp only [true_iff]
        right
        refine ⟨em, rfl, hlen, hre, ?_⟩
        rw [Decidable.not_and_iff_or_not] at hc
        rcases hc with hf | hid
        · left
          cases hfs : (svc.findUserByEmail em).success
          · rfl
          · exact absurd hfs hf
        · right
          exact Decidable.not_not.mp hid
    · rw [if_pos hv]
      simp only [reduceCtorEq, false_iff, not_or]
      refine ⟨by simp, ?_⟩
      rintro ⟨em', hem', hlen, hre, _⟩
      rw [Option.some.injEq] at hem'
      subst hem'
      exact hv (validateEmail_success_iff.mpr ⟨hlen, hre⟩)

theorem createUser_cases (svc : UserService) (req : IUserCreateRequest) :
    (∃ e, svc.createUser req = (createError e, svc)) ∨
    (0 < req.name.length ∧ req.name.length ≤ 50 ∧ 0 < req.email.length ∧
     emailRegexTest req.email = true ∧
     (∀ u ∈ mapValues svc.users, u.email ≠ req.email) ∧
     svc.createUser req =
       (createSuccess { id := svc.nextId, name := req.name, email := req.email },
        { users := mapSet svc.nextId
            { id := svc.nextId, name := req.name, email := req.email } svc.users,
          nextId := svc.nextId + 1 })) := by
  by_cases h1 : (validateName req.name).success = true
  · by_cases h2 : (validateEmail req.email).success = true
    · by_cases h3 : (svc.findUserByEmail req.email).success = true
      · left
        refine ⟨"User with this email already exists", ?_⟩
        simp only [createUser]
        rw [if_neg (not_not_intro h1), if_neg (not_not_intro h2), if_pos h3]
      · have h3' : (svc.findUserByEmail req.email).success = false := by
          cases hfs : (svc.findUserByEmail req.email).success
          · rfl
          · exact absurd hfs h3
        right
        obtain ⟨hn0, hn50⟩ := validateName_success_iff.mp h1
        obtain ⟨he0, her⟩ := validateEmail_success_iff.mp h2
        refine ⟨hn0, hn50, he0, her, findUserByEmail_fail_iff.mp h3', ?_⟩
        simp only [createUser]
        rw [if_neg (not_not_intro h1), if_neg (not_not_intro h2), if_neg h3]
    · left
      refine ⟨jsOrStr (validateEmail req.email).error "Email validation failed", ?_⟩
      simp only [createUser]
      rw [if_neg (not_not_intro h1), if_pos h2]
  · left
    refine ⟨jsOrStr (validateName req.name).error "Name validation failed", ?_⟩
    simp only [createUser]
    rw [if_pos h1]

theorem updateUser_cases (svc : UserService) (id : String)
    (updates : UpdateRequest) :
    (∃ e, svc.updateUser id updates = (createError e, svc)) ∨
    (∃ u : IUser,
      svc.getUserById id = createSuccess u ∧
      updateNameError updates = none ∧
      updateEmailError svc u updates = none ∧
      svc.updateUser id updates =
        (createSuccess (updatedRecord u updates),
         { svc with users := mapSet u.id (updatedRecord u updates) svc.users })) := by
  by_cases hs : (svc.getUserById id).success = true
  · obtain ⟨u, hu⟩ := getUserById_success_shape hs
    cases hn : updateNameError updates with
    | some e =>
      left
      refine ⟨e, ?_⟩
      simp only [updateUser]
      rw [hu]
      simp [createSuccess, hn]
    | none =>
      cases hm : updateEmailError svc u updates with
      | some e =>
        left
        refine ⟨e, ?_⟩
        simp only [updateUser]
        rw [hu]
        simp [createSuccess, hn, hm]
      | none =>
        right
        refine ⟨u, hu, rfl, hm, ?_⟩
        simp only [updateUser]
        rw [hu]
        simp [createSuccess, hn, hm, updatedRecord]
  · have hs' : (svc.getUserById id).success = false := by
      cases hfs : (svc.getUserById id).success
      · rfl
      · exact absurd hfs hs
    obtain ⟨e, he, hne⟩ := getUserById_fail_shape hs'
    left
    refine ⟨e, ?_⟩
    simp only [updateUser]
    rw [he]
    simp [createError, jsOrStr_some_of_ne hne]

theorem deleteUser_cases (svc : UserService) (id : String) :
    (∃ e, svc.deleteUser id = (createError e, svc)) ∨
    (∃ n, TypeConverter.toNumber (.str id) = createSuccess n ∧
      mapHas n svc.users = true ∧
      svc.deleteUser id =
        (createSuccess true, { svc with users := mapDelete n svc.users })) := by
  cases hp : jsStringToNumber id with
  | none =>
    left
    have hc := toNumber_str_none hp
    have hne : ("Cannot convert \"" ++ id ++ "\" to number") ≠ "" :=
      append_ne_empty_left (append_ne_empty_left (by decide))
    refine ⟨"Invalid ID format: " ++ ("Cannot convert \"" ++ id ++ "\" to number"), ?_⟩
    simp only [deleteUser]
    rw [hc]
    simp [createError, jsOrStr_some_of_ne hne]
  | some n =>
    have hc := toNumber_str_some hp
    by_cases hh : mapHas n svc.users = true
    · right
      refine ⟨n, hc, hh, ?_⟩
      simp only [deleteUser]
      rw [hc]
      simp [createSuccess, hh]
    · left
      refine ⟨"User not found with ID: " ++ toString n, ?_⟩
      simp only [deleteUser]
      rw [hc]
      simp [createSuccess, hh]

end UserService

/-! ## Operation sequences over one store instance -/

open UserService

/-- One public store operation, with its arguments. -/
inductive Op where
  | create (request : IUserCreateRequest)
  | getById (id : String)
  | list
  | update (id : String) (updates : UpdateRequest)
  | delete (id : String)

/-- The service state after executing one operation (read-only operations
leave the state unchanged, matching their embedding which returns only a
result). -/
def stepSvc (svc : UserService) : Op → UserService
  | .create req => (svc.createUser req).2
  | .getById _ => svc
  | .list => svc
  | .update id upd => (svc.updateUser id upd).2
  | .delete id => (svc.deleteUser id).2

/-- Whether the result of one operation is a success. -/
def stepOk (svc : UserService) : Op → Bool
  | .create req => (svc.createUser req).1.success
  | .getById id => (svc.getUserById id).success
  | .list => svc.getAllUsers.success
  | .update id upd => (svc.updateUser id upd).1.success
  | .delete id => (svc.deleteUser id).1.success

/-- The service state after a sequence of operations on a fresh store. -/
def run (ops : List Op) : UserService :=
  ops.foldl stepSvc freshStore

/-- The ids assigned by one operation: the id of the record returned by a
successful `create`, nothing otherwise. -/
def createdIds (svc : UserService) (op : Op) : List Int :=
  match op with
  | .create req =>
    let res := (svc.createUser req).1
    if res.success then (res.data.map IUser.id).toList else []
  | _ => []

/-- One execution step carrying the trace of assigned ids. -/
def stepTr (p : UserService × List Int) (op : Op) : UserService × List Int :=
  (stepSvc p.1 op, p.2 ++ createdIds p.1 op)

/-- Execution from a fresh store, with the trace of assigned ids. -/
def runTr (ops : List Op) : UserService × List Int :=
  ops.foldl stepTr (freshStore, [])

/-- A `foldl` preserves any invariant its step function preserves. -/
theorem foldl_preserve {α β : Type} {P : α → Prop} {f : α → β → α}
    (hstep : ∀ a b, P a → P (f a b)) :
    ∀ (l : List β) (a : α), P a → P (l.foldl f a)
  | [], _, h => h
  | b :: l, a, h => foldl_preserve hstep l (f a b) (hstep a b h)

/-! ## The store invariant -/

/-- The internal invariant of a reachable `UserService` state: keys are
unique, every record's `id` equals its key, emails are pairwise distinct,
every key is below the counter, and the counter is at least 1. -/
def StoreInv (svc : UserService) : Prop :=
  (svc.users.map Prod.fst).Nodup ∧
  (∀ p ∈ svc.users, p.2.id = p.1) ∧
  (svc.users.map (fun p => p.2.email)).Nodup ∧
  (∀ p ∈ svc.users, p.1 < svc.nextId) ∧
  1 ≤ svc.nextId

theorem storeInv_fresh : StoreInv freshStore := by
  refine ⟨List.nodup_nil, ?_, List.nodup_nil, ?_, le_refl 1⟩ <;>
    intro p hp <;> simp [freshStore] at hp

theorem email_not_mem_of_values {m : UserMap} {em : String}
    (h : ∀ u ∈ mapValues m, u.email ≠ em) :
    em ∉ m.map (fun p => p.2.email) := by
  intro hmem
  obtain ⟨p, hp, hpe⟩ := List.mem_map.mp hmem
  exact h p.2 (List.mem_map.mpr ⟨p, hp, rfl⟩) hpe

theorem storeInv_createUser (svc : UserService) (req : IUserCreateRequest)
    (h : StoreInv svc) : StoreInv (svc.createUser req).2 := by
  rcases createUser_cases svc req with ⟨e, he⟩ | ⟨_, _, _, _, hnodup, he⟩
  · rw [he]
    exact h
  · rw [he]
    obtain ⟨hkeys, hcoh, hemails, hlt, hpos⟩ := h
    have hfresh : ∀ p ∈ svc.users, p.1 ≠ svc.nextId := by
      intro p hp
      have := hlt p hp
      omega
    simp only [StoreInv, mapSet_fresh hfresh]
    refine ⟨?_, ?_, ?_, ?_, by omega⟩
    · rw [List.map_append, List.nodup_append]
      refine ⟨hkeys, List.nodup_singleton _, ?_⟩
      intro a ha hb
      simp only [List.map_cons, List.map_nil, List.mem_singleton] at hb
      subst hb
      obtain ⟨p, hp, hpa⟩ := List.mem_map.mp ha
      exact hfresh p hp hpa
    · intro p hp
      rcases List.mem_append.mp hp with hold | hnew
      · exact hcoh p hold
      · simp only [List.mem_singleton] at hnew
        subst hnew
        rfl
    · rw [List.map_append, List.nodup_append]
      refine ⟨hemails, List.nodup_singleton _, ?_⟩
      intro a ha hb
      simp only [List.map_cons, List.map_nil, List.mem_singleton] at hb
      subst hb
      exact email_not_mem_of_values hnodup ha
    · intro p hp
      rcases List.mem_append.mp hp with hold | hnew
      · have := hlt p hold
        omega
      · simp only [List.mem_singleton] at hnew
        subst hnew
        simp

theorem storeInv_updateUser (svc : UserService) (id : String)
    (upd : UpdateRequest) (h : StoreInv svc) : StoreInv (svc.updateUser id upd).2 := by
  rcases updateUser_cases svc id upd with ⟨e, he⟩ | ⟨u, hget, _, hm, he⟩
  · rw [he]
    exact h
  · rw [he]
    obtain ⟨hkeys, hcoh, hemails, hlt, hpos⟩ := h
    obtain ⟨n, _, hgetn⟩ := getUserById_success_inv hget
    have hmem : (n, u) ∈ svc.users := mapGet_eq_some_mem hgetn
    have hid : u.id = n := hcoh (n, u) hmem
    have hmem' : (u.id, u) ∈ svc.users := by
      rw [hid]
      exact hmem
    have hemail_case :
        (updatedRecord u upd).email = u.email ∨
          (updatedRecord u upd).email ∉ svc.users.map (fun p => p.2.email) := by
      rcases updateEmailError_none_iff.mp hm with hnone | ⟨em, hem, hlen, _, hdisj⟩
      · left
        simp [updatedRecord, hnone, jsOrStr]
      · have hemne : em ≠ "" := by
          intro h0
          rw [h0] at hlen
          simp at hlen
        have hval : (updatedRecord u upd).email = em := by
          simp [updatedRecord, hem, jsOrStr_some_of_ne hemne]
        rcases hdisj with hf | hdata
        · right
          rw [hval]
          exact email_not_mem_of_values (findUserByEmail_fail_iff.mp hf)
        · left
          cases hd : (svc.findUserByEmail em).data with
          | none =>
            rw [hd] at hdata
            simp at hdata
          | some w =>
            rw [hd] at hdata
            simp only [Option.map_some', Option.some.injEq] at hdata
            obtain ⟨hwmem, hwem⟩ := findUserByEmail_eq_some hd
            obtain ⟨k, hkw⟩ := mem_values_exists_key hwmem
            have hwk : w.id = k := hcoh (k, w) hkw
            have hkid : k = u.id := by rw [← hwk, hdata]
            have hwu : w = u := mem_keys_eq_entry hkeys (hkid ▸ hkw) hmem'
            rw [hval, ← hwem, hwu]
    obtain ⟨l₁, l₂, hsplit, hset⟩ :=
      mapSet_present (v := updatedRecord u upd) hkeys hmem'
    have hgoal_users :
        ({ svc with users := mapSet u.id (updatedRecord u upd) svc.users }).users =
          l₁ ++ (u.id, updatedRecord u upd) :: l₂ := hset
    refine ⟨?_, ?_, ?_, ?_, hpos⟩
    · rw [hgoal_users]
      have hsame : (l₁ ++ (u.id, updatedRecord u upd) :: l₂).map Prod.fst =
          (l₁ ++ (u.id, u) :: l₂).map Prod.fst := by
        simp
      rw [hsame, ← hsplit]
      exact hkeys
    · rw [hgoal_users]
      intro p hp
      rcases List.mem_append.mp hp with h1 | h2
      · exact hcoh p (hsplit ▸ List.mem_append_left _ h1)
      · rcases List.mem_cons.mp h2 with h3 | h4
        · subst h3
          rfl
        · exact hcoh p
            (hsplit ▸ List.mem_append_right _ (List.mem_cons_of_mem _ h4))
    · rw [hgoal_users]
      rcases hemail_case with heq | hfreshm
      · have hsame : (l₁ ++ (u.id, updatedRecord u upd) :: l₂).map (fun p => p.2.email) =
            (l₁ ++ (u.id, u) :: l₂).map (fun p => p.2.email) := by
          simp [heq]
        rw [hsame, ← hsplit]
        exact hemails
      · have hold : (svc.users.map fun p => p.2.email) =
            l₁.map (fun p => p.2.email) ++
              u.email :: l₂.map (fun p => p.2.email) := by
          rw [hsplit]
          simp
        rw [hold] at hemails hfreshm
        have hbase := List.nodup_middle.mp hemails
        rw [List.nodup_cons] at hbase
        simp only [List.map_append, List.map_cons, List.nodup_middle, List.nodup_cons]
        simp only [List.mem_append, List.mem_cons] at hfreshm ⊢
        exact ⟨fun hc => hfreshm (by tauto), hbase.2⟩
    · rw [hgoal_users]
      intro p hp
      have hnext : ({ svc with users := mapSet u.id (updatedRecord u upd) svc.users }).nextId = svc.nextId := rfl
      rw [hnext]
      rcases List.mem_append.mp hp with h1 | h2
      · exact hlt p (hsplit ▸ List.mem_append_left _ h1)
      · rcases List.mem_cons.mp h2 with h3 | h4
        · subst h3
          exact hlt (u.id, u) hmem'
        · exact hlt p
            (hsplit ▸ List.mem_append_right _ (List.mem_cons_of_mem _ h4))

theorem storeInv_deleteUser (svc : UserService) (id : String)
    (h : StoreInv svc) : StoreInv (svc.deleteUser id).2 := by
  rcases deleteUser_cases svc id with ⟨e, he⟩ | ⟨n, _, _, he⟩
  · rw [he]
    exact h
  · rw [he]
    obtain ⟨hkeys, hcoh, hemails, hlt, hpos⟩ := h
    have hsub := mapDelete_sublist n svc.users
    refine ⟨?_, ?_, ?_, ?_, hpos⟩
    · exact List.Nodup.sublist (hsub.map Prod.fst) hkeys
    · intro p hp
      exact hcoh p (hsub.subset hp)
    · exact List.Nodup.sublist (hsub.map _) hemails
    · intro p hp
      exact hlt p (hsub.subset hp)

theorem storeInv_step (svc : UserService) (op : Op) (h : StoreInv svc) :
    StoreInv (stepSvc svc op) := by
  cases op with
  | create req => exact storeInv_createUser svc req h
  | getById _ => exact h
  | list => exact h
  | update id upd => exact storeInv_updateUser svc id upd h
  | delete id => exact storeInv_deleteUser svc id h

theorem storeInv_run (ops : List Op) : StoreInv (run ops) :=
  foldl_preserve (fun a b hb => storeInv_step a b hb) ops freshStore storeInv_fresh

/-! ## The id-trace invariant -/

/-- Invariant tying the id counter to the trace of assigned ids: the
counter is one past the trace length, and the trace is exactly
`[1, 2, …, length]`. -/
def TraceInv (p : UserService × List Int) : Prop :=
  p.1.nextId = (p.2.length : Int) + 1 ∧
  p.2 = (List.range' 1 p.2.length).map Int.ofNat

theorem traceInv_init : TraceInv (freshStore, []) := by
  constructor <;> simp [freshStore]

theorem traceInv_step (p : UserService × List Int) (op : Op)
    (h : TraceInv p) : TraceInv (stepTr p op) := by
  obtain ⟨svc, tr⟩ := p
  obtain ⟨hn, htr⟩ := h
  dsimp only at hn htr
  cases op with
  | create req =>
    rcases createUser_cases svc req with ⟨e, he⟩ | ⟨_, _, _, _, _, he⟩
    · have h1 : (svc.createUser req).1 = createError e := by rw [he]
      have h2 : (svc.createUser req).2 = svc := by rw [he]
      constructor
      · simp [stepTr, stepSvc, createdIds, h1, h2, createError, hn]
      · simp [stepTr, createdIds, h1, createError]
        exact htr
    · have h1 : (svc.createUser req).1 =
          createSuccess { id := svc.nextId, name := req.name, email := req.email } := by
        rw [he]
      have h2 : (svc.createUser req).2.nextId = svc.nextId + 1 := by rw [he]
      have hids : createdIds svc (.create req) = [svc.nextId] := by
        simp [createdIds, h1, createSuccess]
      constructor
      · simp only [stepTr, stepSvc, h2, hids, List.length_append, List.length_cons,
          List.length_nil, hn]
        push_cast
        ring
      · simp only [stepTr, hids, List.length_append, List.length_cons, List.length_nil]
        rw [List.range'_1_concat, List.map_append]
        simp only [List.map_cons, List.map_nil]
        rw [← htr]
        congr 1
        simp only [List.cons.injEq, and_true]
        rw [hn, Int.ofNat_eq_natCast]
        omega
  | getById id =>
    exact ⟨by simpa [stepTr, stepSvc, createdIds] using hn,
           by simpa [stepTr, createdIds] using htr⟩
  | list =>
    exact ⟨by simpa [stepTr, stepSvc, createdIds] using hn,
           by simpa [stepTr, createdIds] using htr⟩
  | update id upd =>
    have h2 : (svc.updateUser id upd).2.nextId = svc.nextId := by
      rcases updateUser_cases svc id upd with ⟨e, he⟩ | ⟨u, _, _, _, he⟩ <;> rw [he]
    exact ⟨by simpa [stepTr, stepSvc, createdIds, h2] using hn,
           by simpa [stepTr, createdIds] using htr⟩
  | delete id =>
    have h2 : (svc.deleteUser id).2.nextId = svc.nextId := by
      rcases deleteUser_cases svc id with ⟨e, he⟩ | ⟨n, _, _, he⟩ <;> rw [he]
    exact ⟨by simpa [stepTr, stepSvc, createdIds, h2] using hn,
           by simpa [stepTr, createdIds] using htr⟩

theorem traceInv_runTr (ops : List Op) : TraceInv (runTr ops) :=
  foldl_preserve traceInv_step ops (freshStore, []) traceInv_init

/-! ## Claim theorems -/

/-- C1: email uniqueness invariant — for every sequence of public store
operations starting from a fresh store, no two records simultaneously
present in the store share the same email (exact string comparison). -/
theorem c1_email_uniqueness (ops : List Op) :
    (mapValues (run ops).users).Pairwise (fun a b => a.email ≠ b.email) := by
  obtain ⟨_, _, hemails, _, _⟩ := storeInv_run ops
  have h : ((run ops).users.map (fun p => p.2.email)).Pairwise (· ≠ ·) := hemails
  rw [List.pairwise_map] at h
  rw [mapValues, List.pairwise_map]
  exact h

/-- C2: id monotonicity — the ids assigned by successful create calls in
one store instance are strictly increasing in creation order, start at 1,
and are never reused (they stay distinct even across deletions). -/
theorem c2_id_monotonicity (ops : List Op) :
    List.Chain' (· < ·) (runTr ops).2 ∧
    ((runTr ops).2 ≠ [] → (runTr ops).2.head? = some 1) ∧
    (runTr ops).2.Nodup := by
  obtain ⟨hn, htr⟩ := traceInv_runTr ops
  have hpair : (runTr ops).2.Pairwise (· < ·) := by
    rw [htr, List.pairwise_map]
    exact (List.pairwise_lt_range' 1 (runTr ops).2.length).imp
      (fun h => Int.ofNat_lt.mpr h)
  refine ⟨hpair.chain', ?_, hpair.imp ne_of_lt⟩
  intro hne
  cases htr_eq : (runTr ops).2 with
  | nil => exact absurd htr_eq hne
  | cons a t =>
    rw [htr_eq] at htr
    rw [List.length_cons, List.range'_succ] at htr
    simp only [List.map_cons] at htr
    injection htr with h1 _
    simp [h1]

/-- C5: error atomicity — whenever a public store operation returns an Err
result, the record mapping and the id counter are exactly as before the
call. -/
theorem c5_error_atomicity (svc : UserService) (op : Op)
    (h : stepOk svc op = false) : stepSvc svc op = svc := by
  cases op with
  | create req =>
    rcases createUser_cases svc req with ⟨e, he⟩ | ⟨_, _, _, _, _, he⟩
    · show (svc.createUser req).2 = svc
      rw [he]
    · simp only [stepOk] at h
      rw [he] at h
      simp [createSuccess] at h
  | getById id => rfl
  | list => rfl
  | update id upd =>
    rcases updateUser_cases svc id upd with ⟨e, he⟩ | ⟨u, _, _, _, he⟩
    · show (svc.updateUser id upd).2 = svc
      rw [he]
    · simp only [stepOk] at h
      rw [he] at h
      simp [createSuccess] at h
  | delete id =>
    rcases deleteUser_cases svc id with ⟨e, he⟩ | ⟨n, _, _, he⟩
    · show (svc.deleteUser id).2 = svc
      rw [he]
    · simp only [stepOk] at h
      rw [he] at h
      simp [createSuccess] at h

/-- Witness for `c5_error_atomicity`: deleting an absent id on a fresh
store fails and leaves the store unchanged. -/
theorem c5_error_atomicity_witness :
    stepOk freshStore (Op.delete "9") = false ∧
      stepSvc freshStore (Op.delete "9") = freshStore :=
  ⟨rfl, c5_error_atomicity freshStore (Op.delete "9") rfl⟩

/-- C7 (counterexample): the monad right-identity law `flatMap(r, ok) == r`
fails at `r = err("")`: the empty error message is falsy in JavaScript, so
`result.error || 'Unknown error'` substitutes the default message. -/
theorem c7_right_identity_cex :
    ResultUtils.flatMap (createError "" : IResult Nat) createSuccess ≠
      (createError "" : IResult Nat) := by
  decide

/-- C7 (amended): `map` satisfies both functor laws for every Result, and
`flatMap` satisfies the left-identity law for every value; the
right-identity law holds for `ok(x)` and for `err(m)` with a non-empty
message `m` (it fails for `err("")`, see the counterexample). -/
theorem c7_functor_monad_laws {α β γ : Type} (x : α) (r : IResult α)
    (f : α → β) (g : β → γ) (fm : α → IResult β) (m : String) (hm : m ≠ "") :
    ResultUtils.map (createSuccess x) id = createSuccess x ∧
    ResultUtils.map (ResultUtils.map r f) g = ResultUtils.map r (g ∘ f) ∧
    ResultUtils.flatMap (createSuccess x) fm = fm x ∧
    ResultUtils.flatMap (createSuccess x) createSuccess = createSuccess x ∧
    ResultUtils.flatMap (createError m : IResult α) createSuccess =
      (createError m : IResult α) := by
  refine ⟨rfl, ?_, rfl, rfl, ?_⟩
  · obtain ⟨s, d, e⟩ := r
    cases s
    · cases e with
      | none => simp [ResultUtils.map, createError, jsOrStr]
      | some s' =>
        by_cases hs : s' = ""
        · simp [ResultUtils.map, createError, jsOrStr, hs]
        · simp [ResultUtils.map, createError, jsOrStr, hs]
    · cases d with
      | none => simp [ResultUtils.map, createError, createSuccess, jsOrStr]
      | some a => simp [ResultUtils.map, createSuccess]
  · simp [ResultUtils.flatMap, createError, jsOrStr, hm]

/-- Witness for `c7_functor_monad_laws` at concrete inputs. -/
theorem c7_functor_monad_laws_witness :
    ("boom" : String) ≠ "" ∧
      ResultUtils.flatMap (createError "boom" : IResult Nat) createSuccess =
        (createError "boom" : IResult Nat) :=
  ⟨by decide, (c7_functor_monad_laws (0 : Nat) (createError "boom" : IResult Nat)
      (id : Nat → Nat) (id : Nat → Nat) createSuccess "boom" (by decide)).2.2.2.2⟩

/-- C8: round-trip for `unwrapOr` — `unwrapOr(ok(x), d) = x` and
`unwrapOr(err(m), d) = d` for all values and messages. -/
theorem c8_unwrapOr_roundtrip {α : Type} (x d : α) (m : String) :
    ResultUtils.unwrapOr (createSuccess x) d = x ∧
    ResultUtils.unwrapOr (createError m) d = d :=
  ⟨rfl, rfl⟩

/-- C9 (counterexample): the error message of an Err result is not always
propagated unchanged — for `err("")` the message is present (`some ""`)
yet `map` replaces it with the default `"Unknown error"`. -/
theorem c9_error_propagation_cex :
    (createError "" : IResult Nat).error = some "" ∧
    ResultUtils.map (createError "" : IResult Nat) (fun n => n) =
      (createError "Unknown error" : IResult Nat) := by
  decide

/-- C9 (amended): for every Err result, `map` and `flatMap` return an Err
whose message is the original message when it is present and non-empty;
the default `"Unknown error"` is substituted when the original message is
absent or the empty string. -/
theorem c9_error_propagation {α β : Type} (r : IResult α) (f : α → β)
    (fm : α → IResult β) (h : r.success = false) :
    (∀ m, r.error = some m → m ≠ "" →
      ResultUtils.map r f = createError m ∧
      ResultUtils.flatMap r fm = createError m) ∧
    ((r.error = none ∨ r.error = some "") →
      ResultUtils.map r f = createError "Unknown error" ∧
      ResultUtils.flatMap r fm = createError "Unknown error") := by
  constructor
  · intro m hm hne
    constructor <;>
      simp [ResultUtils.map, ResultUtils.flatMap, h, hm, jsOrStr_some_of_ne hne]
  · rintro (hm | hm) <;>
      exact ⟨by simp [ResultUtils.map, h, hm, jsOrStr],
             by simp [ResultUtils.flatMap, h, hm, jsOrStr]⟩

/-- Witness for `c9_error_propagation`: a non-empty message survives
`map` unchanged. -/
theorem c9_error_propagation_witness :
    (createError "bad" : IResult Nat).success = false ∧
      ResultUtils.map (createError "bad" : IResult Nat) (fun n => n) =
        (createError "bad" : IResult Nat) :=
  ⟨rfl, ((c9_error_propagation (createError "bad" : IResult Nat) (fun n => n)
      (fun n => createSuccess n) rfl).1 "bad" rfl (by decide)).1⟩

/-- C3: `create` validates the name (non-empty, at most 50 characters)
then the email (non-empty, matching the regex), short-circuiting with the
first failing validation's message; then a duplicate email fails with
"User with this email already exists"; otherwise it inserts and returns a
new record carrying the requested name and email and a fresh positive id.
Stated over any state satisfying the reachable-store invariant. -/
theorem c3_create_validation (svc : UserService) (hinv : StoreInv svc)
    (req : IUserCreateRequest) :
    (req.name.length = 0 →
      svc.createUser req = (createError "Name cannot be empty", svc)) ∧
    (0 < req.name.length → 50 < req.name.length →
      svc.createUser req = (createError "Name cannot exceed 50 characters", svc)) ∧
    (0 < req.name.length → req.name.length ≤ 50 → req.email.length = 0 →
      svc.createUser req = (createError "Email cannot be empty", svc)) ∧
    (0 < req.name.length → req.name.length ≤ 50 → 0 < req.email.length →
      emailRegexTest req.email = false →
      svc.createUser req = (createError "Invalid email format", svc)) ∧
    (0 < req.name.length → req.name.length ≤ 50 → 0 < req.email.length →
      emailRegexTest req.email = true →
      (∃ u ∈ mapValues svc.users, u.email = req.email) →
      svc.createUser req = (createError "User with this email already exists", svc)) ∧
    (0 < req.name.length → req.name.length ≤ 50 → 0 < req.email.length →
      emailRegexTest req.email = true →
      (∀ u ∈ mapValues svc.users, u.email ≠ req.email) →
      ∃ user : IUser,
        svc.createUser req =
          (createSuccess user,
           { users := svc.users ++ [(user.id, user)], nextId := svc.nextId + 1 }) ∧
        user.name = req.name ∧ user.email = req.email ∧ 0 < user.id ∧
        mapGet user.id svc.users = none) := by
  obtain ⟨hkeys, hcoh, hemails, hlt, hpos⟩ := hinv
  refine ⟨?_, ?_, ?_, ?_, ?_, ?_⟩
  · intro h
    simp only [createUser, validateName_empty h]
    rw [if_pos (by simp [createError])]
    simp [createError, jsOrStr]
  · intro h0 h50
    simp only [createUser, validateName_long h0 h50]
    rw [if_pos (by simp [createError])]
    simp [createError, jsOrStr]
  · intro h0 h50 he
    simp only [createUser, validateName_ok h0 h50, validateEmail_empty he]
    rw [if_neg (by simp [createSuccess]), if_pos (by simp [createError])]
    simp [createError, jsOrStr]
  · intro h0 h50 he0 hre
    simp only [createUser, validateName_ok h0 h50, validateEmail_invalid he0 hre]
    rw [if_neg (by simp [createSuccess]), if_pos (by simp [createError])]
    simp [createError, jsOrStr]
  · intro h0 h50 he0 hre hex
    have hfs : (svc.findUserByEmail req.email).success = true :=
      findUserByEmail_success_iff.mpr hex
    simp only [createUser, validateName_ok h0 h50, validateEmail_ok he0 hre]
    rw [if_neg (by simp [createSuccess]), if_neg (by simp [createSuccess]),
        if_pos hfs]
  · intro h0 h50 he0 hre hnone
    have hfs : (svc.findUserByEmail req.email).success = false :=
      findUserByEmail_fail_iff.mpr hnone
    have hfresh : ∀ p ∈ svc.users, p.1 ≠ svc.nextId := by
      intro p hp
      have := hlt p hp
      omega
    refine ⟨{ id := svc.nextId, name := req.name, email := req.email },
      ?_, rfl, rfl, hpos, ?_⟩
    · simp only [createUser, validateName_ok h0 h50, validateEmail_ok he0 hre]
      rw [if_neg (by simp [createSuccess]), if_neg (by simp [createSuccess]),
          if_neg (by simp [hfs])]
      rw [mapSet_fresh hfresh]
    · rw [mapGet_eq_none_iff]
      exact hfresh

/-- Witness for `c3_create_validation` on a fresh store: an empty name is
rejected with its message, and a valid request inserts a record with the
requested fields. -/
theorem c3_create_validation_witness :
    freshStore.createUser { name := "", email := "a@b.c" } =
        (createError "Name cannot be empty", freshStore) ∧
      ∃ user : IUser,
        freshStore.createUser { name := "John", email := "a@b.c" } =
          (createSuccess user,
           { users := freshStore.users ++ [(user.id, user)],
             nextId := freshStore.nextId + 1 }) ∧
        user.name = "John" ∧ user.email = "a@b.c" ∧ 0 < user.id ∧
        mapGet user.id freshStore.users = none :=
  ⟨(c3_create_validation freshStore storeInv_fresh
      { name := "", email := "a@b.c" }).1 rfl,
   (c3_create_validation freshStore storeInv_fresh
      { name := "John", email := "a@b.c" }).2.2.2.2.2 (by decide) (by decide)
      (by decide) (by decide) (by simp [freshStore, mapValues])⟩

/-- C4 (counterexample): an update that explicitly supplies the empty
string for `name` is not silently ignored — `updateUser` rejects it with
"Name cannot be empty" instead of returning the record with its prior
name. -/
theorem c4_empty_string_update_cex :
    UserService.updateUser
        { users := [(1, { id := 1, name := "John", email := "john@example.com" })],
          nextId := 2 }
        "1" { name := some "", email := none } =
      (createError "Name cannot be empty",
       { users := [(1, { id := 1, name := "John", email := "john@example.com" })],
         nextId := 2 }) := by
  rfl

/-- C4 (amended): in `update`, fields not supplied (absent) retain their
prior values; but an explicitly supplied empty-string field is not
treated as "not given" — it reaches the field validator and the update
fails with "Name cannot be empty" / "Email cannot be empty", leaving the
store unchanged. -/
theorem c4_update_field_handling (svc : UserService) (id : String) (u : IUser)
    (hget : svc.getUserById id = createSuccess u) :
    (svc.updateUser id { name := none, email := none } =
      (createSuccess u, { svc with users := mapSet u.id u svc.users })) ∧
    (svc.updateUser id { name := some "", email := none } =
      (createError "Name cannot be empty", svc)) ∧
    (svc.updateUser id { name := none, email := some "" } =
      (createError "Email cannot be empty", svc)) ∧
    (∀ nm : String, 0 < nm.length → nm.length ≤ 50 →
      ∃ u' : IUser, u'.id = u.id ∧ u'.name = nm ∧ u'.email = u.email ∧
        svc.updateUser id { name := some nm, email := none } =
          (createSuccess u', { svc with users := mapSet u.id u' svc.users })) := by
  have hbase : ∀ upd : UpdateRequest, updateNameError upd = none →
      updateEmailError svc u upd = none →
      svc.updateUser id upd =
        (createSuccess (updatedRecord u upd),
         { svc with users := mapSet u.id (updatedRecord u upd) svc.users }) := by
    intro upd hn hm
    simp only [updateUser]
    rw [hget]
    simp [createSuccess, hn, hm, updatedRecord]
  have herr : ∀ upd : UpdateRequest, ∀ e, updateNameError upd = some e →
      svc.updateUser id upd = (createError e, svc) := by
    intro upd e hn
    simp only [updateUser]
    rw [hget]
    simp [createSuccess, hn]
  refine ⟨?_, ?_, ?_, ?_⟩
  · have := hbase { name := none, email := none } rfl rfl
    simpa only [updatedRecord, jsOrStr] using this
  · exact herr { name := some "", email := none } _ rfl
  · have hm : updateEmailError svc u { name := none, email := some "" } =
        some "Email cannot be empty" := rfl
    simp only [updateUser]
    rw [hget]
    simp only [createSuccess]
    rw [show updateNameError { name := none, email := some "" } = none from rfl, hm]
    simp
  · intro nm h0 h50
    have hnm : nm ≠ "" := by
      intro hc
      rw [hc] at h0
      simp at h0
    have hn : updateNameError { name := some nm, email := none } = none := by
      simp [updateNameError, validateName_ok h0 h50, createSuccess]
    refine ⟨updatedRecord u { name := some nm, email := none }, rfl, ?_, rfl, ?_⟩
    · simp [updatedRecord, jsOrStr_some_of_ne hnm]
    · exact hbase _ hn rfl

/-- Witness for `c4_update_field_handling` at a concrete one-record
store. -/
theorem c4_update_field_handling_witness :
    UserService.getUserById
        { users := [(1, { id := 1, name := "John", email := "john@example.com" })],
          nextId := 2 } "1" =
      createSuccess { id := 1, name := "John", email := "john@example.com" } ∧
    UserService.updateUser
        { users := [(1, { id := 1, name := "John", email := "john@example.com" })],
          nextId := 2 } "1" { name := none, email := some "" } =
      (createError "Email cannot be empty",
       { users := [(1, { id := 1, name := "John", email := "john@example.com" })],
         nextId := 2 }) :=
  ⟨rfl, (c4_update_field_handling
      { users := [(1, { id := 1, name := "John", email := "john@example.com" })],
        nextId := 2 } "1"
      { id := 1, name := "John", email := "john@example.com" } rfl).2.2.1⟩

/-- C6: `getById` first converts the id text via `toNumber`; a conversion
failure yields an error wrapping the conversion message prefixed with
"Invalid ID format"; a successful conversion is looked up in the map, an
absent key yields "User not found with ID: {id}" and a present key
returns the record. -/
theorem c6_getById_behavior (svc : UserService) (idText : String) :
    (∀ m, TypeConverter.toNumber (.str idText) = createError m →
      svc.getUserById idText = createError ("Invalid ID format: " ++ m)) ∧
    (∀ n, TypeConverter.toNumber (.str idText) = createSuccess n →
      (mapGet n svc.users = none →
        svc.getUserById idText =
          createError ("User not found with ID: " ++ toString n)) ∧
      (∀ u, mapGet n svc.users = some u →
        svc.getUserById idText = createSuccess u)) :=
  ⟨fun _ hm => getUserById_conv_fail hm,
   fun _ hn => ⟨fun hg => getUserById_not_found hn hg,
                fun _ hg => getUserById_found hn hg⟩⟩

/-- Witness for `c6_getById_behavior`: a non-numeric id on a fresh store
and a found record on a one-record store. -/
theorem c6_getById_behavior_witness :
    TypeConverter.toNumber (.str "abc") =
        createError "Cannot convert \"abc\" to number" ∧
      UserService.getUserById freshStore "abc" =
        createError ("Invalid ID format: " ++ "Cannot convert \"abc\" to number") ∧
      UserService.getUserById
          { users := [(1, { id := 1, name := "J", email := "j@e.c" })], nextId := 2 }
          "1" =
        createSuccess { id := 1, name := "J", email := "j@e.c" } :=
  ⟨rfl, (c6_getById_behavior freshStore "abc").1 _ rfl,
   ((c6_getById_behavior
       { users := [(1, { id := 1, name := "J", email := "j@e.c" })], nextId := 2 }
       "1").2 1 rfl).2 _ rfl⟩

/-- C10: `toNumber` on the empty string returns Ok 0 (JavaScript
`Number("")` is 0), so `getById("")` and `delete("")` on a store with no
record of id 0 fail with "User not found with ID: 0" rather than an
"Invalid ID format" error. -/
theorem c10_empty_string_id (svc : UserService)
    (h : mapGet 0 svc.users = none) :
    TypeConverter.toNumber (.str "") = createSuccess 0 ∧
    svc.getUserById "" = createError "User not found with ID: 0" ∧
    svc.deleteUser "" = (createError "User not found with ID: 0", svc) := by
  have ht : TypeConverter.toNumber (.str "") = createSuccess 0 := rfl
  have hmsg : ("User not found with ID: " ++ toString (0 : Int)) =
      "User not found with ID: 0" := rfl
  refine ⟨ht, ?_, ?_⟩
  · rw [getUserById_not_found ht h, hmsg]
  · simp only [deleteUser]
    rw [ht]
    have hh : mapHas 0 svc.users = false := by
      simp [mapHas, h]
    simp [createSuccess, hh, hmsg]

/-- Witness for `c10_empty_string_id` on a fresh store. -/
theorem c10_empty_string_id_witness :
    mapGet 0 freshStore.users = none ∧
      UserService.getUserById freshStore "" =
        createError "User not found with ID: 0" :=
  ⟨rfl, (c10_empty_string_id freshStore rfl).2.1⟩
